import Mathlib

/-!
Verification of the dom-element-to-component-source resolution pipeline.

The development shallowly embeds the TypeScript sources:
 - sourceLocationResolver.ts   (parseDebugStack, findNodeWithoutNodeModules,
   getComponentName, extractFilePathFromStack, validateSourceLocation)
 - getElementSourceLocation.ts (extractFiberNode, findFiberWithDebugStack,
   getParentSourceLocation, getElementSourceLocation)
 - resolveSourceLocationInServer.ts (resolveSourceLocationInServer)
 - the ForwardRef-deferring evolution of parseDebugStack (unnamed part_003).

JavaScript objects that may be cyclic (React fiber nodes) are modelled as a
heap: a list of records whose link fields hold indices into the list.  Loops
in the source are modelled with an explicit fuel parameter; a result of
`none` at the outer level means the loop did not finish within the given
fuel, and a statement that this holds for every fuel is a divergence proof.
External services (ErrorStackParser, StackTraceGPS, the file system, the
source-map consumer) are parameters; a thrown exception is an error value.

String primitives are re-implemented over `List Char` so that all concrete
computations reduce inside the kernel.
-/

/-! ### String utilities (kernel-computable, ASCII-level) -/

/-- Does the second list occur as an initial segment of the first? -/
def listBeginsWith : List Char → List Char → Bool
  | _, [] => true
  | [], _ :: _ => false
  | c :: cs, p :: ps => c == p && listBeginsWith cs ps

/-- Does the pattern occur as a contiguous sublist? -/
def listContainsSub : List Char → List Char → Bool
  | s, pat =>
    if listBeginsWith s pat then true
    else match s with
      | [] => false
      | _ :: rest => listContainsSub rest pat

/-- JS String.prototype.startsWith. -/
def strBeginsWith (s pre : String) : Bool := listBeginsWith s.data pre.data

/-- JS String.prototype.endsWith. -/
def strEndsWith (s suf : String) : Bool :=
  listBeginsWith s.data.reverse suf.data.reverse

/-- JS String.prototype.includes. -/
def strContainsSub (s pat : String) : Bool := listContainsSub s.data pat.data

/-- Drop the first n characters. -/
def strDropChars (s : String) (n : Nat) : String := String.mk (s.data.drop n)

/-- Drop the last n characters. -/
def strDropRight (s : String) (n : Nat) : String :=
  String.mk (s.data.take (s.data.length - n))

/-- JS s.split(sep)[0] for a one-character separator: everything before the
first occurrence of the character. -/
def strTakeUntilChar (s : String) (sep : Char) : String :=
  String.mk (s.data.takeWhile (fun c => !(c == sep)))

/-- file.split('?')[0]: remove a trailing query-string suffix. -/
def stripQuery (s : String) : String := strTakeUntilChar s '?'

/-- The characters strictly after the last occurrence of the separator
(the whole string when the separator is absent): a path base name. -/
def lastComponent (s : String) (sep : Char) : String :=
  String.mk ((s.data.reverse.takeWhile (fun c => !(c == sep))).reverse)

/-- The shortest prefix of s that ends with the first occurrence of pat,
or none when pat does not occur. -/
def strTakeThroughSub (s pat : String) : Option String :=
  listTakeThrough s.data pat.data
where
  listTakeThrough : List Char → List Char → Option String
    | s, pat =>
      if listBeginsWith s pat then some (String.mk pat)
      else match s with
        | [] => none
        | c :: rest =>
          (listTakeThrough rest pat).map (fun t => String.mk (c :: t.data))

/-- JS whitespace test for String.prototype.trim (common characters). -/
def isWhitespaceChar (c : Char) : Bool :=
  c == ' ' || c == '\t' || c == '\n' || c == '\r'

/-- JS String.prototype.trim. -/
def strTrim (s : String) : String :=
  String.mk (((s.data.dropWhile isWhitespaceChar).reverse.dropWhile
    isWhitespaceChar).reverse)

/-- Value of a hexadecimal digit, over raw code points (48-57 digits,
97-102 lower case, 65-70 upper case). -/
def hexDigitVal (c : Char) : Option Nat :=
  match c.toNat with
  | n =>
    if 48 ≤ n && n ≤ 57 then some (n - 48)
    else if 97 ≤ n && n ≤ 102 then some (n - 87)
    else if 65 ≤ n && n ≤ 70 then some (n - 55)
    else none

/-- Percent-decoding on a character list; none models a URIError thrown by
decodeURIComponent on a malformed escape. Multi-byte UTF-8 escapes are out of
scope of the inputs considered here. -/
def percentDecodeList : List Char → Option (List Char)
  | [] => some []
  | '%' :: a :: b :: rest => do
    let hi ← hexDigitVal a
    let lo ← hexDigitVal b
    let tail ← percentDecodeList rest
    pure (Char.ofNat (16 * hi + lo) :: tail)
  | '%' :: [] => none
  | '%' :: [_] => none
  | c :: rest => (percentDecodeList rest).map (fun t => c :: t)

/-- decodeURIComponent; none models a thrown URIError. -/
def decodeURIComponentF (s : String) : Option String :=
  (percentDecodeList s.data).map String.mk

/-- Replace every backslash with a forward slash
(the .replace(/\\/g, '/') normalization). -/
def slashNormalize (s : String) : String :=
  String.mk (s.data.map (fun c => if c == '\\' then '/' else c))

/-- node:path dirname, for absolute POSIX-style paths: everything before
the last slash (the filesystem root when nothing remains). -/
def dirnameOf (s : String) : String :=
  let d := String.mk ((s.data.reverse.dropWhile (fun c => !(c == '/'))).drop 1).reverse
  if d == "" then "/" else d

/-- node:path join of two segments, without dot-segment normalization
(the inputs resolved here contain none). -/
def joinPath (a b : String) : String :=
  if a == "" then b
  else if strEndsWith a "/" then a ++ b
  else a ++ "/" ++ b

/-! ### JS truthiness helpers -/

/-- Truthiness of an optional JS string: present and non-empty. -/
def truthyS (a : Option String) : Bool :=
  match a with
  | some s => !(s == "")
  | none => false

/-- JS a || b for strings (the empty string is falsy). -/
def jsOrS (a b : Option String) : Option String := if truthyS a then a else b

/-- JS a || d with a string default (the empty string is falsy). -/
def jsStrOrElse (a : Option String) (d : String) : String :=
  match a with
  | some s => if s == "" then d else s
  | none => d

/-- JS a || d for numbers (0 is falsy). -/
def jsIntOrElse (a : Option Int) (d : Int) : Int :=
  match a with
  | some n => if n == 0 then d else n
  | none => d

/-! ### Data model -/

/-- The SourceLocation entity of types.ts. The parent field links to the next
ancestor's location, forming a finite chain. -/
inductive SourceLocation : Type where
  | mk (file : String) (line : Int) (column : Int)
      (componentName : Option String) (tagName : Option String)
      (sourceCode : Option String) (parent : Option SourceLocation)

def SourceLocation.file : SourceLocation → String
  | .mk f _ _ _ _ _ _ => f

def SourceLocation.line : SourceLocation → Int
  | .mk _ l _ _ _ _ _ => l

def SourceLocation.column : SourceLocation → Int
  | .mk _ _ c _ _ _ _ => c

def SourceLocation.componentName : SourceLocation → Option String
  | .mk _ _ _ n _ _ _ => n

def SourceLocation.tagName : SourceLocation → Option String
  | .mk _ _ _ _ t _ _ => t

def SourceLocation.sourceCode : SourceLocation → Option String
  | .mk _ _ _ _ _ s _ => s

def SourceLocation.parent : SourceLocation → Option SourceLocation
  | .mk _ _ _ _ _ _ p => p

/-- Replace the parent field. -/
def SourceLocation.withParent : SourceLocation → Option SourceLocation → SourceLocation
  | .mk f l c n t s _, p => .mk f l c n t s p

/-- Number of ancestors reached by following the parent field repeatedly. -/
def ancestorCount : SourceLocation → Nat
  | .mk _ _ _ _ _ _ none => 0
  | .mk _ _ _ _ _ _ (some p) => 1 + ancestorCount p

/-- A frame produced by the stack-trace tokenizer (error-stack-parser) or by
the bundler mapping service; every member may be absent. -/
structure StackFrame where
  fileName : Option String
  lineNumber : Option Int
  columnNumber : Option Int

/-- The debug payload carried by a fiber node: a captured stack trace (an
Error whose stack string tokenizes to the attached frames, none when the
tokenizer throws on it), a simple file/line/column descriptor, or some other
truthy object with neither shape. -/
inductive DebugPayload : Type where
  | stackTrace (parsed : Option (List StackFrame))
  | descriptor (fileName : String) (lineNumber : Int) (columnNumber : Int)
  | other

/-- The type field of a fiber node. -/
structure TypeInfo where
  displayName : Option String
  renderName : Option String
  name : Option String

/-- One React fiber node; link fields hold heap indices, so self-references
and cycles in malformed trees are representable. -/
structure FiberData where
  tag : Option Int
  _debugStack : Option DebugPayload
  debugStack : Option DebugPayload
  _debugSource : Option DebugPayload
  name : Option String
  type : Option TypeInfo
  _debugOwner : Option Nat
  owner : Option Nat
  env : Option String
  ret : Option Nat
  child : Option Nat
  sibling : Option Nat

/-- A heap of fiber nodes; node identity is the index. -/
abbrev Heap := List FiberData

/-- A fiber node with every field absent. -/
def defaultFiber : FiberData :=
  ⟨none, none, none, none, none, none, none, none, none, none, none, none⟩

/-- Dereference a node id; a dangling id behaves as an empty object. -/
def derefFiber (h : Heap) (i : Nat) : FiberData := (h.get? i).getD defaultFiber

/-- The bundler position-mapping service gps.getMappedLocation; none models a
thrown exception. -/
abbrev GpsService := StackFrame → Option StackFrame

/-- The debugStack local of parseDebugStack:
fiber._debugStack || fiber.debugStack || fiber._debugSource. -/
def jsDebugPayload (fd : FiberData) : Option DebugPayload :=
  fd._debugStack <|> fd.debugStack <|> fd._debugSource

/-- hasDebugStack of getElementSourceLocation.ts. -/
def hasDebugStack (fd : FiberData) : Bool := (jsDebugPayload fd).isSome

/-- validateSourceLocation of sourceLocationResolver.ts. -/
def validateSourceLocation (s : SourceLocation) : Bool :=
  !(s.file == "") && !(strTrim s.file == "") &&
    decide (s.line > 0) && decide (s.column ≥ 0)

/-- The result type of getElementSourceLocation. -/
inductive SourceLocationResult : Type where
  | ok (data : SourceLocation)
  | err (error : String)

/-! ### sourceLocationResolver.ts -/

/-- The stack-trace branch of parseDebugStack (the body guarded by
':stack' in debugStack'): tokenize, require two frames, take frame index 1,
try the mapping service, and on a thrown mapping fall back to the raw target
frame. The frames.length >= 2 guard and the frames[1] access are encoded as
one lookup of index 1. A parsed value of none models ErrorStackParser.parse
throwing (in the try and again in the catch), which yields null. -/
def parseStackBranch (gps : GpsService) :
    Option (List StackFrame) → Option String → Option SourceLocation
  | none, _ => none
  | some stackFrames, componentName =>
    match stackFrames.get? 1 with
    | none => none
    | some targetFrame =>
      match gps targetFrame with
      | some originalFrame =>
        some (.mk
          (stripQuery (jsStrOrElse originalFrame.fileName
            (jsStrOrElse targetFrame.fileName "")))
          (jsIntOrElse originalFrame.lineNumber (jsIntOrElse targetFrame.lineNumber 0))
          (jsIntOrElse originalFrame.columnNumber (jsIntOrElse targetFrame.columnNumber 0))
          componentName none none none)
      | none =>
        some (.mk (stripQuery (jsStrOrElse targetFrame.fileName ""))
          (jsIntOrElse targetFrame.lineNumber 0)
          (jsIntOrElse targetFrame.columnNumber 0)
          componentName none none none)

/-- extractFilePathFromStack of sourceLocationResolver.ts. -/
def extractFilePathFromStackF (gps : GpsService) : DebugPayload → Option String
  | .descriptor f _ _ => if f == "" then none else some f
  | .stackTrace parsed =>
    (match parsed with
    | none => none
    | some frames =>
      match frames.get? 1 with
      | none => none
      | some target =>
        match gps target with
        | some orig =>
          some (stripQuery (jsStrOrElse orig.fileName (jsStrOrElse target.fileName "")))
        | none => some (stripQuery (jsStrOrElse target.fileName "")))
  | .other => none

/-- isNodeModulesNode of sourceLocationResolver.ts. -/
def isNodeModulesNodeF (h : Heap) (gps : GpsService) (i : Nat) : Bool :=
  match jsDebugPayload (derefFiber h i) with
  | some p =>
    match extractFilePathFromStackF gps p with
    | some fp => !(fp == "") && strContainsSub fp "node_modules"
    | none => false
  | none => false

/-- The while loop of findNodeWithoutNodeModules; orig is the function's
fiberNode argument, returned when the chain ends without a match. -/
def findNodeGo (h : Heap) (gps : GpsService) (orig : Nat) : Nat → Nat → Option Nat
  | 0, _ => none
  | fuel + 1, cur =>
    let fd := derefFiber h cur
    let hit :=
      match jsDebugPayload fd with
      | some p =>
        match extractFilePathFromStackF gps p with
        | some fp => !(fp == "") && !(strContainsSub fp "node_modules")
        | none => false
      | none => false
    if hit then some cur
    else
      match fd._debugOwner with
      | some nxt => findNodeGo h gps orig fuel nxt
      | none => some orig

/-- findNodeWithoutNodeModules of sourceLocationResolver.ts, with fuel;
none means the loop did not finish within the fuel. -/
def findNodeWithoutNodeModulesF (fuel : Nat) (h : Heap) (gps : GpsService)
    (i : Nat) : Option Nat :=
  findNodeGo h gps i fuel i

/-- getNameFromFiber of sourceLocationResolver.ts: displayName, then the
render function name, then the type name, then the fiber's own name field;
only a truthy name is returned. -/
def getNameFromFiberF (fd : FiberData) : Option String :=
  let fromType := fd.type.bind (fun t =>
    jsOrS t.displayName (jsOrS t.renderName t.name))
  let n := jsOrS fromType fd.name
  if truthyS n then n else none

/-- The while loop of getComponentName over the _debugOwner chain, carrying
the previous node for the same-node revisit guard. -/
def getComponentNameGo (h : Heap) (gps : GpsService) :
    Nat → Option Nat → Option Nat → Option (Option String)
  | 0, _, _ => none
  | _ + 1, none, _ => some none
  | fuel + 1, some cur, prev? =>
    if prev? == some cur then some none
    else
      let fd := derefFiber h cur
      if isNodeModulesNodeF h gps cur then
        getComponentNameGo h gps fuel fd._debugOwner (some cur)
      else
        match getNameFromFiberF fd with
        | some n => some (some n)
        | none => getComponentNameGo h gps fuel fd._debugOwner (some cur)

/-- getComponentName of sourceLocationResolver.ts, with fuel. -/
def getComponentNameF (fuel : Nat) (h : Heap) (gps : GpsService) (i : Nat) :
    Option (Option String) :=
  let fd := derefFiber h i
  if !(isNodeModulesNodeF h gps i) then
    match getNameFromFiberF fd with
    | some n => some (some n)
    | none => getComponentNameGo h gps fuel fd._debugOwner none
  else getComponentNameGo h gps fuel fd._debugOwner none

/-- The final validity gate of parseDebugStack:
if (!sourceLocation.file || sourceLocation.line <= 0) return null. -/
def parseFinalGate (o : Option SourceLocation) : Option SourceLocation :=
  o.bind (fun s => if s.file == "" || decide (s.line ≤ 0) then none else some s)

/-- parseDebugStack of sourceLocationResolver.ts, with fuel; the outer none
means an internal loop did not finish within the fuel. -/
def parseDebugStackF (fuel : Nat) (h : Heap) (gps : GpsService) (i : Nat) :
    Option (Option SourceLocation) :=
  match findNodeWithoutNodeModulesF fuel h gps i with
  | none => none
  | some n =>
    match jsDebugPayload (derefFiber h n) with
    | none => some none
    | some payload =>
      match getComponentNameF fuel h gps n with
      | none => none
      | some componentName =>
        some (parseFinalGate
          (match payload with
          | .stackTrace parsed => parseStackBranch gps parsed componentName
          | .descriptor f l c =>
            some (.mk (stripQuery f) (jsIntOrElse (some l) 0)
              (jsIntOrElse (some c) 0) componentName none none none)
          | .other => none))

/-! ### getElementSourceLocation.ts -/

/-- A DOM element as probed by extractFiberNode: the four fixed attachment
points and the element's own enumerable keys in enumeration order. A key's
value of none models a falsy or non-object value. -/
structure DomElement where
  isElement : Bool
  _reactInternals : Option Nat
  _reactInternalFiber : Option Nat
  __reactInternalInstance : Option Nat
  _reactInternalInstance : Option Nat
  dynamicKeys : List (String × Option Nat)

/-- extractFiberNode of getElementSourceLocation.ts. -/
def extractFiberNodeF (el : DomElement) : Option Nat :=
  el._reactInternals <|> el._reactInternalFiber <|>
    el.__reactInternalInstance <|> el._reactInternalInstance <|>
    el.dynamicKeys.findSome? (fun kv =>
      if strBeginsWith kv.1 "__reactFiber$" || strBeginsWith kv.1 "_reactFiber$" then
        kv.2
      else none)

/-- findFiberWithDebugStack of getElementSourceLocation.ts. The loop counter
is carried as remaining = maxDepth - depth; the sibling recursion restarts
with the current remaining budget, exactly as in the source. The separate
fuel bounds the recursion itself, which the source does not bound. -/
def findFiberWithDebugStackF (h : Heap) : Nat → Nat → Int → Option (Option Nat)
  | 0, _, _ => none
  | fuel + 1, cur, remaining =>
    if remaining ≤ 0 then some none
    else
      let fd := derefFiber h cur
      if hasDebugStack fd then some (some cur)
      else
        match fd.ret with
        | some r => findFiberWithDebugStackF h fuel r (remaining - 1)
        | none =>
          match fd.sibling with
          | some s =>
            (match findFiberWithDebugStackF h fuel s remaining with
            | none => none
            | some (some x) => some (some x)
            | some none => some none)
          | none => some none

/-- Attach the parent when one was found:
if (grandParentLocation) parentLocation.parent = grandParentLocation. -/
def attachParent (loc : SourceLocation) : Option SourceLocation → SourceLocation
  | some g => loc.withParent (some g)
  | none => loc

/-- getParentSourceLocation of getElementSourceLocation.ts. The conceptual
argument node is represented by its _debugOwner field (the only field the
function reads from it), so the wrapper object built for the recursive call
is the plain owner id. isNextJs? = none models the undefined third argument
of the first call. -/
def getParentSourceLocationF (h : Heap) (gps : GpsService) :
    Nat → Option Nat → Int → Option Bool → Option (Option SourceLocation)
  | 0, _, _, _ => none
  | fuel + 1, owner?, md, isNextJs? =>
    if md ≤ 0 then some none
    else
      match owner? with
      | none => some none
      | some c =>
        let fd := derefFiber h c
        let isN :=
          match isNextJs? with
          | none => fd.env == some "Server"
          | some b => b
        let fallback :=
          match (if isN then fd.owner else fd._debugOwner) with
          | some nn =>
            getParentSourceLocationF h gps fuel (some nn) (md - 1) (some isN)
          | none => some none
        if hasDebugStack fd then
          match parseDebugStackF fuel h gps c with
          | none => none
          | some (some loc) =>
            if validateSourceLocation loc then
              match getParentSourceLocationF h gps fuel fd._debugOwner (md - 1) (some isN) with
              | none => none
              | some gp => some (some (attachParent loc gp))
            else fallback
          | some none => fallback
        else fallback

/-- The try body of getElementSourceLocation; an Except.error is an exception
reaching the outer catch (a null element makes the first property access
throw). A maxDepth? of none models an absent options.maxDepth. -/
def getElementSourceLocationBody (fuel : Nat) (h : Heap) (gps : GpsService)
    (element : Option DomElement) (maxDepth? : Option Int) :
    Option (Except String SourceLocationResult) :=
  match element with
  | none => some (.error "Cannot read properties of null")
  | some el =>
    if !el.isElement then some (.ok (.err "Invalid element provided"))
    else
      match extractFiberNodeF el with
      | none => some (.ok (.err "No React Fiber node found on element"))
      | some fiberNode =>
        let maxDepth := jsIntOrElse maxDepth? 10
        match findFiberWithDebugStackF h fuel fiberNode maxDepth with
        | none => none
        | some none =>
          some (.ok (.err "No debug stack information found in fiber tree"))
        | some (some j) =>
          match parseDebugStackF fuel h gps j with
          | none => none
          | some none =>
            some (.ok (.err "No debug stack information found on Fiber node"))
          | some (some loc) =>
            if validateSourceLocation loc then
              match getParentSourceLocationF h gps fuel (derefFiber h j)._debugOwner
                  maxDepth none with
              | none => none
              | some par => some (.ok (.ok (attachParent loc par)))
            else some (.ok (.err "Invalid source location data found"))

/-- getElementSourceLocation of getElementSourceLocation.ts: the try body
wrapped in the catch that turns any exception into a failure result. -/
def getElementSourceLocationF (fuel : Nat) (h : Heap) (gps : GpsService)
    (element : Option DomElement) (maxDepth? : Option Int) :
    Option SourceLocationResult :=
  (getElementSourceLocationBody fuel h gps element maxDepth?).map (fun r =>
    match r with
    | .ok v => v
    | .error e => .err ("Error extracting source location: " ++ e))


/-! ### resolveSourceLocationInServer.ts -/

/-- The raw parsed map data; only the sourceRoot field is inspected by the
resolver. -/
structure RawSourceMap where
  sourceRoot : Option String

/-- consumer.originalPositionFor result. -/
structure OrigPos where
  source : Option String
  line : Option Int
  column : Option Int

/-- The environment collaborators of the server resolver: file existence,
synchronous read, JSON parsing and the source-map consumer query. An
Except.error models a thrown exception. -/
structure ServerEnv where
  existsFile : String → Bool
  readFile : String → Except Unit String
  parseJson : String → Except Unit RawSourceMap
  originalPositionFor : RawSourceMap → Int → Int → Except Unit OrigPos

/-- Lines 32-43: strip the about://React/Server/ marker, turn an embedded
file:/// or file:// scheme into an absolute path, and percent-decode
(keeping the undecoded path when decoding throws). -/
def scriptPathOfServerFile (file : String) : String :=
  let p0 :=
    if strBeginsWith file "about://React/Server/" then strDropChars file 21
    else file
  let p1 :=
    if strBeginsWith p0 "file:///" then "/" ++ strDropChars p0 8
    else if strBeginsWith p0 "file://" then "/" ++ strDropChars p0 7
    else p0
  match decodeURIComponentF p1 with
  | some d => d
  | none => p1

/-- The second candidate tried for the companion map:
filePath.replace(/\.js$/, '.map'), which only rewrites a literal .js suffix
and leaves any other path unchanged. -/
def jsMapCandidate (filePath : String) : String :=
  if strEndsWith filePath ".js" then strDropRight filePath 3 ++ ".map"
  else filePath

/-- Lines 45-57: locate the companion map file, trying path + '.map', then
the .js suffix replaced by '.map' (for a non-.js path this retries the path
itself), then path + '.map' once more for non-.js paths; none when no
candidate exists. -/
def sourceMapPathF (ex : String → Bool) (filePath : String) : Option String :=
  let smp1 := filePath ++ ".map"
  if ex smp1 then some smp1
  else
    let smp2 := jsMapCandidate filePath
    if ex smp2 then some smp2
    else
      let smp3 := if !strEndsWith filePath ".js" then filePath ++ ".map" else smp2
      if ex smp3 then some smp3 else none

/-- The try body of resolveSourceLocationInServer (lines 31-112), entered
only for a server-prefixed location; Except.error is an exception reaching
the catch. -/
def resolveServerBody (env : ServerEnv) (loc : SourceLocation) :
    Except Unit SourceLocation :=
  let filePath := scriptPathOfServerFile loc.file
  match sourceMapPathF env.existsFile filePath with
  | none => .ok loc
  | some sourceMapPath =>
    match env.readFile sourceMapPath with
    | .error _ => .error ()
    | .ok content =>
      match env.parseJson content with
      | .error _ => .error ()
      | .ok rawSourceMap =>
        match env.originalPositionFor rawSourceMap loc.line loc.column with
        | .error _ => .error ()
        | .ok pos =>
          match pos.source, pos.line with
          | some src, some posLine =>
            let r0 :=
              if strBeginsWith src "file:///" then "/" ++ strDropChars src 8
              else if strBeginsWith src "file://" then "/" ++ strDropChars src 7
              else src
            let r1 :=
              if !strBeginsWith r0 "/" then
                match rawSourceMap.sourceRoot with
                | some sr =>
                  if sr == "" then joinPath (dirnameOf sourceMapPath) r0
                  else if !strBeginsWith sr "/" then
                    joinPath (joinPath (dirnameOf sourceMapPath) sr) r0
                  else joinPath sr r0
                | none => joinPath (dirnameOf sourceMapPath) r0
              else r0
            .ok (.mk (slashNormalize r1)
              (jsIntOrElse (some posLine) loc.line)
              (match pos.column with
              | some pc => pc
              | none => loc.column)
              loc.componentName none loc.sourceCode none)
          | _, _ => .ok loc

/-- resolveSourceLocationInServer of resolveSourceLocationInServer.ts:
pass-through for non-server locations, and the catch that returns the
original location on any exception. -/
def resolveSourceLocationInServerF (env : ServerEnv) (loc : SourceLocation) :
    SourceLocation :=
  if !strBeginsWith loc.file "about://React/Server/" then loc
  else
    match resolveServerBody env loc with
    | .ok r => r
    | .error _ => loc

/-- The spec's words for the second map candidate: the script extension
replaced with .map, whatever the extension is. Named apart from
jsMapCandidate so the two readings can be compared. -/
def specExtensionReplacedWithMap (p : String) : String :=
  let ext := lastComponent p '.'
  if ext == p then p ++ ".map" else strDropRight p (ext.length + 1) ++ ".map"

/-! ### The ForwardRef-deferring evolution of parseDebugStack (part_003) -/

/-- The wrapper-skip loop: while (node.tag === 11 && node._debugOwner)
node = node._debugOwner; fuel-bounded, none when the loop does not finish. -/
def skipForwardRefs (h : Heap) : Nat → Nat → Option Nat
  | 0, _ => none
  | fuel + 1, i =>
    if (derefFiber h i).tag == some 11 then
      match (derefFiber h i)._debugOwner with
      | some o => skipForwardRefs h fuel o
      | none => some i
    else some i

/-- Lines 42-59 of the part_003 parseDebugStack: skip ForwardRef wrappers,
then, when the landing node's creator is itself a ForwardRef, defer to the
result of skipping wrappers from that creator. The returned node supplies
the debug payload. -/
def nodeToCheckFR (h : Heap) (fuel : Nat) (i : Nat) : Option Nat :=
  match skipForwardRefs h fuel i with
  | none => none
  | some n =>
    match (derefFiber h n)._debugOwner with
    | some o =>
      if (derefFiber h o).tag == some 11 then skipForwardRefs h fuel o
      else some n
    | none => some n

/-- The getComponentName loop of part_003: climb _debugOwner, skipping
ForwardRef nodes, taking current.name || current.type?.name, guarded by a
previous-node check. -/
def getComponentNameFRGo (h : Heap) :
    Nat → Option Nat → Option Nat → Option (Option String)
  | 0, _, _ => none
  | _ + 1, none, _ => some none
  | fuel + 1, some cur, prev? =>
    if prev? == some cur then some none
    else
      let fd := derefFiber h cur
      if fd.tag == some 11 then
        getComponentNameFRGo h fuel fd._debugOwner (some cur)
      else
        let nm := jsOrS fd.name (fd.type.bind TypeInfo.name)
        if truthyS nm then some nm
        else getComponentNameFRGo h fuel fd._debugOwner (some cur)

/-- parseDebugStack of part_003: resolve the node to check by deferring away
from ForwardRef wrappers, then proceed as the main version does. -/
def parseDebugStackFR (fuel : Nat) (h : Heap) (gps : GpsService) (i : Nat) :
    Option (Option SourceLocation) :=
  match nodeToCheckFR h fuel i with
  | none => none
  | some n =>
    let fd := derefFiber h n
    match jsDebugPayload fd with
    | none => some none
    | some payload =>
      match getComponentNameFRGo h fuel fd._debugOwner none with
      | none => none
      | some componentName =>
        let res :=
          match payload with
          | .stackTrace parsed => parseStackBranch gps parsed componentName
          | .descriptor f l c =>
            some (.mk (stripQuery f) (jsIntOrElse (some l) 0)
              (jsIntOrElse (some c) 0) componentName none none none)
          | .other => none
        some (parseFinalGate res)

/-! ### Server-chunk URL remapping (spec section 4.3, resolution order step 1) -/

/-- Modelled from the spec: the server-chunk URL rewriting branch of the
stack-frame resolver is exercised by tests/sourceLocationResolver.test.ts but
its implementation is not among the sources, so it is reconstructed from the
spec's words. When frame 0's file references a client-served bundle path and
frame 1's file begins with the server pseudo-scheme prefix containing an
embedded file:// path, extract that embedded absolute path (percent-decoded)
and, when it matches the server-build chunk-output directory pattern, rewrite
it into the equivalent client-served chunk URL, substituting the build-output
segment for the client static-asset segment and preserving the chunk's base
file name. -/
def remapServerChunkUrl (frame0File frame1File : String) : Option String :=
  if strContainsSub frame0File "/_next/static/" &&
      strBeginsWith frame1File "about://React/Server/file://" then
    let raw := stripQuery (strDropChars frame1File 21)
    let path0 :=
      if strBeginsWith raw "file:///" then "/" ++ strDropChars raw 8
      else if strBeginsWith raw "file://" then "/" ++ strDropChars raw 7
      else raw
    let path :=
      match decodeURIComponentF path0 with
      | some d => d
      | none => path0
    if strContainsSub path "/.next/server/chunks/" then
      match strTakeThroughSub frame0File "/_next/static/chunks/" with
      | some clientBase => some (clientBase ++ lastComponent path '/')
      | none => none
    else none
  else none

/-- Modelled from the spec: the stack-trace resolution order applied to a
tokenized frame list (the target frame is frame index 1, fewer than two
frames is a failure). Step 1 is the server-chunk rewriting above, taking
frame 1's line/column unchanged; otherwise the raw target frame's file
(query-string stripped) and position are used, standing for the generic
bundler fallback whose service is external. -/
def parseStackFramesSpec (frames : List StackFrame) : Option SourceLocation :=
  match frames.get? 0, frames.get? 1 with
  | some f0, some f1 =>
    let line := jsIntOrElse f1.lineNumber 0
    let col := jsIntOrElse f1.columnNumber 0
    (match remapServerChunkUrl (jsStrOrElse f0.fileName "")
        (jsStrOrElse f1.fileName "") with
    | some url => some (.mk url line col none none none none)
    | none =>
      some (.mk (stripQuery (jsStrOrElse f1.fileName "")) line col
        none none none none))
  | _, _ => none

/-! ### Concrete fixtures -/

/-- A mapping service that always throws. -/
def gpsNone : GpsService := fun _ => none

/-- A fiber whose debug source points into application code, owned by a
second fiber with its own debug source. -/
def heapC3 : Heap :=
  [{ defaultFiber with
      _debugSource := some (.descriptor "App.tsx" 10 5)
      _debugOwner := some 1 },
   { defaultFiber with _debugSource := some (.descriptor "Parent.tsx" 3 2) }]

/-- An element whose _reactInternals attachment point holds fiber 0. -/
def elC3 : DomElement := ⟨true, some 0, none, none, none, []⟩

/-- The location the pipeline produces for heapC3. -/
def locC3success : SourceLocation :=
  .mk "App.tsx" 10 5 none none none (some (.mk "Parent.tsx" 3 2 none none none none))

/-- A malformed fiber whose _debugOwner is itself and that carries no debug
payload. -/
def heapSelfLoop : Heap := [{ defaultFiber with _debugOwner := some 0 }]

/-- A malformed creator chain: node 2 points at node 0, and nodes 0 and 1
point at each other; no node carries a payload or a name. -/
def heapCycle : Heap :=
  [{ defaultFiber with _debugOwner := some 1 },
   { defaultFiber with _debugOwner := some 0 },
   { defaultFiber with _debugOwner := some 0 }]

/-- A ForwardRef wrapper whose creator is a creator-less ForwardRef. -/
def heapFR : Heap :=
  [{ defaultFiber with
      tag := some 11
      _debugOwner := some 1 },
   { defaultFiber with tag := some 11 }]

/-- Frames for the stack-branch witnesses. -/
def frameW0 : StackFrame := ⟨some "http://localhost:3000/app.js", some 1, some 1⟩

def frameW1 : StackFrame := ⟨some "Comp.tsx", some 7, some 9⟩

def frameW2 : StackFrame := ⟨some "http://other.example/b.js", some 2, some 3⟩

/-- A mapped frame whose line and column are both the legal position 0. -/
def frameMappedZero : StackFrame := ⟨some "mapped.tsx", some 0, some 0⟩

/-- A mapping service that resolves every frame to position 0:0. -/
def gpsZero : GpsService := fun _ => some frameMappedZero

/-- An environment in which no file exists and every service throws. -/
def envAllFalse : ServerEnv :=
  ⟨fun _ => false, fun _ => .error (), fun _ => .error (), fun _ _ _ => .error ()⟩

/-- An environment in which every file exists but reading throws. -/
def envReadThrows : ServerEnv :=
  ⟨fun _ => true, fun _ => .error (), fun _ => .error (), fun _ _ _ => .error ()⟩

/-- A server-tagged location. -/
def locServerC2 : SourceLocation :=
  .mk "about://React/Server/file:///srv/chunk.js" 5 0 none none none none

/-- A location outside the server pseudo-scheme. -/
def locClientC9 : SourceLocation := .mk "/src/App.tsx" 12 3 none none none none

/-- A server-tagged location whose script has a non-.js extension. -/
def locC8 : SourceLocation :=
  .mk "about://React/Server/file:///app/chunk.mjs" 1 0 none none none none

/-- An environment in which only the script file itself exists, and reading
it yields parsable map data that resolves position 1:0. -/
def envC8 : ServerEnv :=
  ⟨fun p => p == "/app/chunk.mjs",
   fun p => if p == "/app/chunk.mjs" then .ok "mapcontent" else .error (),
   fun s => if s == "mapcontent" then .ok ⟨none⟩ else .error (),
   fun _ l c =>
     if l == 1 && c == 0 then .ok ⟨some "a.ts", some 7, some 4⟩
     else .error ()⟩

/-- The two frames of the server-chunk remapping test. -/
def frameC5a : StackFrame :=
  ⟨some "http://localhost:3000/_next/static/chunks/a8c60_next_dist_compiled_0f4d9d23._.js",
   some 4325, some 16⟩

def frameC5b : StackFrame :=
  ⟨some "about://React/Server/file:///Users/itay/code/ask-the-llm/test/sites/blog-starter/.next/server/chunks/ssr/%5Broot-of-the-server%5D__925b01b7._.js?49:200:316",
   some 200, some 316⟩

/-! ### Theorems -/

/-- C9: for every SourceLocation whose file does not start with the server
pseudo-scheme prefix about://React/Server/, resolveSourceLocationInServer
returns a value equal to its input, for every environment (pure
pass-through, no error). -/
theorem non_server_location_passthrough (env : ServerEnv) (loc : SourceLocation)
    (h : strBeginsWith loc.file "about://React/Server/" = false) :
    resolveSourceLocationInServerF env loc = loc := by
  unfold resolveSourceLocationInServerF
  rw [h]
  rfl

theorem non_server_location_passthrough_witness :
    strBeginsWith locClientC9.file "about://React/Server/" = false ∧
    resolveSourceLocationInServerF envAllFalse locClientC9 = locClientC9 :=
  ⟨rfl, non_server_location_passthrough envAllFalse locClientC9 rfl⟩

/-- C2: no exception escapes a public entry point. Whenever the try body of
getElementSourceLocation raises, the public function returns a tagged
failure result carrying the formatted message; and whenever the body of
resolveSourceLocationInServer raises anywhere, the public function returns
the original, unresolved location. -/
theorem public_operations_never_throw :
    (∀ fuel h gps el md? e,
      getElementSourceLocationBody fuel h gps el md? = some (Except.error e) →
      getElementSourceLocationF fuel h gps el md? =
        some (SourceLocationResult.err ("Error extracting source location: " ++ e))) ∧
    (∀ env loc, resolveServerBody env loc = Except.error () →
      resolveSourceLocationInServerF env loc = loc) := by
  constructor
  · intro fuel h gps el md? e hb
    unfold getElementSourceLocationF
    rw [hb]
    rfl
  · intro env loc hb
    unfold resolveSourceLocationInServerF
    by_cases hp : strBeginsWith loc.file "about://React/Server/"
    · rw [hp, hb]
      rfl
    · rw [Bool.not_eq_true] at hp
      rw [hp]
      rfl

theorem public_operations_never_throw_witness :
    getElementSourceLocationF 5 [] gpsNone none none =
      some (SourceLocationResult.err
        ("Error extracting source location: " ++ "Cannot read properties of null")) ∧
    resolveSourceLocationInServerF envReadThrows locServerC2 = locServerC2 :=
  ⟨public_operations_never_throw.1 5 [] gpsNone none none
      "Cannot read properties of null" rfl,
   public_operations_never_throw.2 envReadThrows locServerC2 rfl⟩

/-- C7: the stack-trace branch of parseDebugStack returns no location when
the tokenizer yields fewer than two frames, and when it resolves, the
location depends only on the frame at index 1 (together with the external
mapping service and the already-resolved component name): frame 0 is never
the target. -/
theorem stack_branch_requires_two_frames_and_targets_frame_one
    (gps : GpsService) (cn : Option String) :
    (∀ frames : List StackFrame, frames.length < 2 →
      parseStackBranch gps (some frames) cn = none) ∧
    (∀ fr fr' : List StackFrame, 2 ≤ fr.length → 2 ≤ fr'.length →
      fr.get? 1 = fr'.get? 1 →
      parseStackBranch gps (some fr) cn = parseStackBranch gps (some fr') cn) := by
  constructor
  · intro frames hlt
    have h1 : frames.get? 1 = none := by
      rw [List.get?_eq_none]
      omega
    simp only [parseStackBranch]
    rw [h1]
  · intro fr fr' h1 h2 h3
    simp only [parseStackBranch]
    rw [h3]

theorem stack_branch_requires_two_frames_and_targets_frame_one_witness :
    parseStackBranch gpsNone (some [frameW0]) none = none ∧
    parseStackBranch gpsNone (some [frameW0, frameW1]) none =
      parseStackBranch gpsNone (some [frameW2, frameW1]) none :=
  ⟨(stack_branch_requires_two_frames_and_targets_frame_one gpsNone none).1
      [frameW0] (by decide),
   (stack_branch_requires_two_frames_and_targets_frame_one gpsNone none).2
      [frameW0, frameW1] [frameW2, frameW1] (by decide) (by decide) rfl⟩

/-- C10: in the stack-trace branch, the fallback from the mapped frame to
the raw target frame is truthiness-based: whenever the mapping service
returns columnNumber 0 (a legal 0-based column) the result's column is the
target frame's column (or 0) rather than the mapped 0, and independently,
whenever the mapped lineNumber is 0 the result's line is the target frame's
line (or 0): each zero falls back on its own, whatever the other mapped
member is. -/
theorem zero_mapped_position_falls_back_to_target_frame
    (gps : GpsService) (cn : Option String) (frames : List StackFrame)
    (target orig : StackFrame)
    (htgt : frames.get? 1 = some target)
    (hgps : gps target = some orig) :
    ∃ loc, parseStackBranch gps (some frames) cn = some loc ∧
      (orig.columnNumber = some 0 →
        loc.column = jsIntOrElse target.columnNumber 0) ∧
      (orig.lineNumber = some 0 →
        loc.line = jsIntOrElse target.lineNumber 0) := by
  simp only [parseStackBranch, htgt, hgps]
  refine ⟨_, rfl, ?_, ?_⟩
  · intro hc
    simp [SourceLocation.column, hc, jsIntOrElse]
  · intro hl
    simp [SourceLocation.line, hl, jsIntOrElse]

theorem zero_mapped_position_falls_back_to_target_frame_witness :
    ∃ loc, parseStackBranch gpsZero (some [frameW0, frameW1]) none = some loc ∧
      (frameMappedZero.columnNumber = some 0 →
        loc.column = jsIntOrElse frameW1.columnNumber 0) ∧
      (frameMappedZero.lineNumber = some 0 →
        loc.line = jsIntOrElse frameW1.lineNumber 0) :=
  zero_mapped_position_falls_back_to_target_frame gpsZero none
    [frameW0, frameW1] frameW1 frameMappedZero rfl rfl

/-- Whenever the wrapper-skip loop lands on a node, that node is either not
a ForwardRef wrapper or has no creator link left to follow. -/
theorem skipForwardRefs_lands_outside_wrappers (h : Heap) :
    ∀ fuel i n, skipForwardRefs h fuel i = some n →
      (derefFiber h n).tag = some 11 → (derefFiber h n)._debugOwner = none := by
  intro fuel
  induction fuel with
  | zero =>
    intro i n hn
    exact absurd hn (by simp [skipForwardRefs])
  | succ k ih =>
    intro i n hn htag
    unfold skipForwardRefs at hn
    split at hn
    · split at hn
      · exact ih _ n hn htag
      · cases hn
        assumption
    · cases hn
      rename_i hc
      exact absurd (beq_iff_eq.mpr htag) hc

/-- C4: in the ForwardRef-deferring parseDebugStack (part_003), the node
selected to supply the debug payload is never a wrapper that still has a
creator: a wrapper-kind node whose creator reference resolves is always
deferred away from, transitively while the creator is itself a wrapper. -/
theorem wrapper_with_creator_never_descriptor_source (h : Heap)
    (fuel i n : Nat)
    (hn : nodeToCheckFR h fuel i = some n)
    (hw : (derefFiber h n).tag = some 11) :
    (derefFiber h n)._debugOwner = none := by
  cases hs : skipForwardRefs h fuel i with
  | none =>
    simp only [nodeToCheckFR, hs] at hn
    exact absurd hn (by simp)
  | some m =>
    cases ho : (derefFiber h m)._debugOwner with
    | none =>
      simp only [nodeToCheckFR, hs, ho, Option.some.injEq] at hn
      subst hn
      exact ho
    | some o =>
      by_cases hot : ((derefFiber h o).tag == some 11) = true
      · simp only [nodeToCheckFR, hs, ho, hot, if_true] at hn
        exact skipForwardRefs_lands_outside_wrappers h fuel o n hn hw
      · rw [Bool.not_eq_true] at hot
        simp only [nodeToCheckFR, hs, ho, hot, Bool.false_eq_true, if_false,
          Option.some.injEq] at hn
        subst hn
        exact absurd (skipForwardRefs_lands_outside_wrappers h fuel i m hs hw)
          (by simp [ho])

theorem wrapper_with_creator_never_descriptor_source_witness :
    nodeToCheckFR heapFR 5 0 = some 1 ∧
    (derefFiber heapFR 1).tag = some 11 ∧
    (derefFiber heapFR 1)._debugOwner = none :=
  ⟨rfl, rfl, wrapper_with_creator_never_descriptor_source heapFR 5 0 1 rfl rfl⟩

/-- The findNodeWithoutNodeModules loop never finishes on the self-owned
payload-less fiber, for any fuel. -/
theorem findNodeGo_selfLoop_diverges (fuel : Nat) :
    findNodeGo heapSelfLoop gpsNone 0 fuel 0 = none := by
  induction fuel with
  | zero => rfl
  | succ k ih => exact ih

/-- The getComponentName loop alternates forever between the two cycle
nodes, for any fuel. -/
theorem getComponentNameGo_cycle_diverges (fuel : Nat) :
    getComponentNameGo heapCycle gpsNone fuel (some 0) (some 1) = none ∧
    getComponentNameGo heapCycle gpsNone fuel (some 1) (some 0) = none := by
  induction fuel with
  | zero => exact ⟨rfl, rfl⟩
  | succ k ih => exact ⟨ih.2, ih.1⟩

/-- C6: the claim that the creator-chain traversals terminate even on
self-referencing or cyclic _debugOwner links fails on the code:
findNodeWithoutNodeModules never finishes on a self-referencing node without
a usable payload, and getComponentName never finishes on a two-node creator
cycle, however much fuel the loops are given. -/
theorem owner_chain_traversals_diverge_on_cycles :
    (∀ fuel, findNodeWithoutNodeModulesF fuel heapSelfLoop gpsNone 0 = none) ∧
    (∀ fuel, getComponentNameF fuel heapCycle gpsNone 2 = none) := by
  constructor
  · intro fuel
    exact findNodeGo_selfLoop_diverges fuel
  · intro fuel
    cases fuel with
    | zero => rfl
    | succ k => exact (getComponentNameGo_cycle_diverges k).2

set_option maxRecDepth 100000 in
/-- C5: on the two-frame synthetic stack whose frame 0 lies under the client
static-asset segment and whose frame 1 is the about://React/Server/ URL
embedding the server chunk path with line 200 and column 316, the resolved
location is the chunk's base file name rewritten under the client
static-asset chunks segment, with line and column unchanged. -/
theorem server_chunk_url_remapped_to_client_asset :
    parseStackFramesSpec [frameC5a, frameC5b] =
      some (.mk "http://localhost:3000/_next/static/chunks/[root-of-the-server]__925b01b7._.js"
        200 316 none none none none) := by
  rfl

/-- Characterization of the map-candidate search: the third probe can never
succeed where the first failed, so the search reduces to the two candidates
in order. -/
theorem sourceMapPathF_characterization (ex : String → Bool) (fp : String) :
    sourceMapPathF ex fp =
      (if ex (fp ++ ".map") then some (fp ++ ".map")
       else if ex (jsMapCandidate fp) then some (jsMapCandidate fp)
       else none) := by
  unfold sourceMapPathF
  by_cases h1 : ex (fp ++ ".map") = true
  · simp [h1]
  · rw [Bool.not_eq_true] at h1
    by_cases h2 : ex (jsMapCandidate fp) = true
    · simp [h1, h2]
    · rw [Bool.not_eq_true] at h2
      by_cases hjs : strEndsWith fp ".js" = true
      · simp [h1, h2, hjs]
      · rw [Bool.not_eq_true] at hjs
        simp [h1, h2, hjs]

/-- C8 amended: the companion map is located by trying, in order, the script
path with ".map" appended, then the path with a literal ".js" suffix
replaced by ".map" (a non-.js script path is retried as-is at this step);
when neither candidate exists, the input location is returned unchanged
rather than an error. -/
theorem map_candidate_order_and_fallback (env : ServerEnv) (loc : SourceLocation) :
    sourceMapPathF env.existsFile (scriptPathOfServerFile loc.file) =
      (if env.existsFile (scriptPathOfServerFile loc.file ++ ".map") then
        some (scriptPathOfServerFile loc.file ++ ".map")
      else if env.existsFile (jsMapCandidate (scriptPathOfServerFile loc.file)) then
        some (jsMapCandidate (scriptPathOfServerFile loc.file))
      else none) ∧
    (env.existsFile (scriptPathOfServerFile loc.file ++ ".map") = false →
      env.existsFile (jsMapCandidate (scriptPathOfServerFile loc.file)) = false →
      resolveSourceLocationInServerF env loc = loc) := by
  refine ⟨sourceMapPathF_characterization env.existsFile _, ?_⟩
  intro h1 h2
  have hnone : sourceMapPathF env.existsFile (scriptPathOfServerFile loc.file) = none := by
    rw [sourceMapPathF_characterization, h1, h2]
    simp
  unfold resolveSourceLocationInServerF
  by_cases hp : strBeginsWith loc.file "about://React/Server/" = true
  · simp [hp, resolveServerBody, hnone]
  · rw [Bool.not_eq_true] at hp
    simp [hp]

theorem map_candidate_order_and_fallback_witness :
    envAllFalse.existsFile (scriptPathOfServerFile locServerC2.file ++ ".map") = false ∧
    resolveSourceLocationInServerF envAllFalse locServerC2 = locServerC2 :=
  ⟨rfl, (map_candidate_order_and_fallback envAllFalse locServerC2).2 rfl rfl⟩

/-- C8 counterexample: for a server-tagged location whose script path ends
in .mjs, neither the appended-.map candidate nor the extension-replaced
candidate the claim describes exists, yet the resolver does not return the
input unchanged: the code retries the non-.js script path as its own map
candidate and resolves through it. -/
theorem map_extension_replacement_counterexample :
    envC8.existsFile (scriptPathOfServerFile locC8.file ++ ".map") = false ∧
    envC8.existsFile (specExtensionReplacedWithMap
      (scriptPathOfServerFile locC8.file)) = false ∧
    resolveSourceLocationInServerF envC8 locC8 ≠ locC8 := by
  refine ⟨rfl, rfl, fun hEq => ?_⟩
  have hf := congrArg SourceLocation.file hEq
  rw [show (resolveSourceLocationInServerF envC8 locC8).file = "/app/a.ts" from rfl,
    show locC8.file = "about://React/Server/file:///app/chunk.mjs" from rfl] at hf
  exact absurd hf (by decide)

/-- attachParent changes only the parent field. -/
theorem attachParent_fields (loc : SourceLocation) (p : Option SourceLocation) :
    (attachParent loc p).file = loc.file ∧
    (attachParent loc p).line = loc.line ∧
    (attachParent loc p).column = loc.column := by
  cases p <;> cases loc <;> exact ⟨rfl, rfl, rfl⟩

/-- A validated location has a positive line, a non-negative column and a
non-empty file. -/
theorem validateSourceLocation_fields (loc : SourceLocation)
    (hv : validateSourceLocation loc = true) :
    loc.line > 0 ∧ loc.column ≥ 0 ∧ loc.file ≠ "" := by
  unfold validateSourceLocation at hv
  simp only [Bool.and_eq_true, Bool.not_eq_true', beq_eq_false_iff_ne, ne_eq,
    decide_eq_true_eq] at hv
  exact ⟨hv.1.2, hv.2, hv.1.1.1⟩

/-- Every location built by the stack-trace branch has no parent. -/
theorem parseStackBranch_parent_none (gps : GpsService)
    (parsed : Option (List StackFrame)) (cn : Option String) (s : SourceLocation)
    (hp : parseStackBranch gps parsed cn = some s) : s.parent = none := by
  cases parsed with
  | none => simp [parseStackBranch] at hp
  | some frames =>
    simp only [parseStackBranch] at hp
    split at hp
    · exact absurd hp (by simp)
    · split at hp
      · cases hp
        rfl
      · cases hp
        rfl

/-- The final validity gate passes a location through unchanged. -/
theorem parseFinalGate_eq (o : Option SourceLocation) (s : SourceLocation)
    (hp : parseFinalGate o = some s) : o = some s := by
  cases o with
  | none => simp [parseFinalGate] at hp
  | some t =>
    unfold parseFinalGate at hp
    simp only [Option.some_bind] at hp
    split at hp
    · exact absurd hp (by simp)
    · cases hp
      rfl

/-- Every location returned by parseDebugStack has no parent: the parent is
attached afterwards by the ancestor-chain builder. -/
theorem parseDebugStackF_parent_none (fuel : Nat) (h : Heap) (gps : GpsService)
    (i : Nat) (s : SourceLocation)
    (hp : parseDebugStackF fuel h gps i = some (some s)) : s.parent = none := by
  unfold parseDebugStackF at hp
  split at hp
  · exact absurd hp (by simp)
  · split at hp
    · exact absurd hp (by simp)
    · split at hp
      · exact absurd hp (by simp)
      · rw [Option.some.injEq] at hp
        have hre := parseFinalGate_eq _ _ hp
        split at hre
        · exact parseStackBranch_parent_none _ _ _ _ hre
        · cases hre
          rfl
        · exact absurd hre (by simp)

/-- A location without a parent has no ancestors. -/
theorem ancestorCount_eq_zero (loc : SourceLocation) (hp : loc.parent = none) :
    ancestorCount loc = 0 := by
  cases loc with
  | mk f l c n t s p =>
    cases p with
    | none => rfl
    | some g => exact absurd hp (by simp [SourceLocation.parent])

/-- Attaching a parent adds exactly its chain on top of the location. -/
theorem ancestorCount_attach_some (loc g : SourceLocation) :
    ancestorCount (attachParent loc (some g)) = 1 + ancestorCount g := by
  cases loc
  rfl

/-- A found fiber implies a positive remaining depth budget. -/
theorem findFiberWithDebugStackF_pos (h : Heap) (fuel cur : Nat) (rem : Int)
    (j : Nat) (hf : findFiberWithDebugStackF h fuel cur rem = some (some j)) :
    0 < rem := by
  cases fuel with
  | zero => simp [findFiberWithDebugStackF] at hf
  | succ k =>
    by_cases hrem : rem ≤ 0
    · simp only [findFiberWithDebugStackF, if_pos hrem] at hf
      exact absurd hf (by simp)
    · omega

/-- The creator-hop fallback of the ancestor builder preserves the depth
bound. -/
theorem getParent_fallback_bound (h : Heap) (gps : GpsService) (k : Nat)
    (ih : ∀ ow md isN g, getParentSourceLocationF h gps k ow md isN =
      some (some g) → 1 + (ancestorCount g : Int) ≤ md)
    (nxt : Option Nat) (md : Int) (isN : Bool) (g : SourceLocation)
    (hg : (match nxt with
           | some nn => getParentSourceLocationF h gps k (some nn) (md - 1) (some isN)
           | none => some none) = some (some g)) :
    1 + (ancestorCount g : Int) ≤ md := by
  cases nxt with
  | none => exact absurd hg (by simp)
  | some nn =>
    have := ih (some nn) (md - 1) (some isN) g hg
    omega

/-- Every ancestor location returned with depth budget md carries at most
md - 1 further ancestors. -/
theorem getParentSourceLocationF_bound (h : Heap) (gps : GpsService) :
    ∀ fuel ow md isN g,
      getParentSourceLocationF h gps fuel ow md isN = some (some g) →
      1 + (ancestorCount g : Int) ≤ md := by
  intro fuel
  induction fuel with
  | zero =>
    intro ow md isN g hg
    simp [getParentSourceLocationF] at hg
  | succ k ih =>
    intro ow md isN g hg
    by_cases hmd : md ≤ 0
    · simp only [getParentSourceLocationF, if_pos hmd] at hg
      exact absurd hg (by simp)
    · cases ow with
      | none =>
        simp only [getParentSourceLocationF, if_neg hmd] at hg
        exact absurd hg (by simp)
      | some c =>
        simp only [getParentSourceLocationF, if_neg hmd] at hg
        by_cases hhd : hasDebugStack (derefFiber h c) = true
        · simp only [hhd, if_true] at hg
          cases hp : parseDebugStackF k h gps c with
          | none =>
            simp only [hp] at hg
            exact absurd hg (by simp)
          | some pl =>
            cases pl with
            | none =>
              simp only [hp] at hg
              exact getParent_fallback_bound h gps k ih _ md _ g hg
            | some loc =>
              simp only [hp] at hg
              by_cases hval : validateSourceLocation loc = true
              · simp only [hval, if_true] at hg
                split at hg
                · exact absurd hg (by simp)
                · rename_i gp hgp
                  rw [Option.some.injEq, Option.some.injEq] at hg
                  subst hg
                  cases gp with
                  | none =>
                    have hz : ancestorCount (attachParent loc none) = 0 := by
                      have := parseDebugStackF_parent_none k h gps c loc hp
                      exact ancestorCount_eq_zero _ (by
                        cases loc
                        simpa [attachParent] using this)
                    rw [hz]
                    omega
                  | some g' =>
                    have hb1 := ih _ _ _ g' hgp
                    rw [ancestorCount_attach_some]
                    push_cast
                    omega
              · rw [Bool.not_eq_true] at hval
                simp only [hval, Bool.false_eq_true, if_false] at hg
                exact getParent_fallback_bound h gps k ih _ md _ g hg
        · rw [Bool.not_eq_true] at hhd
          simp only [hhd, Bool.false_eq_true, if_false] at hg
          exact getParent_fallback_bound h gps k ih _ md _ g hg

/-- A success result of the try body decomposes into a found fiber, a parsed
and validated location, and the attached ancestor chain. -/
theorem getElementSourceLocationBody_ok (fuel : Nat) (h : Heap) (gps : GpsService)
    (el : Option DomElement) (md? : Option Int) (data : SourceLocation)
    (hb : getElementSourceLocationBody fuel h gps el md? =
      some (.ok (.ok data))) :
    ∃ fiberNode j loc par,
      findFiberWithDebugStackF h fuel fiberNode (jsIntOrElse md? 10) =
        some (some j) ∧
      parseDebugStackF fuel h gps j = some (some loc) ∧
      validateSourceLocation loc = true ∧
      getParentSourceLocationF h gps fuel (derefFiber h j)._debugOwner
        (jsIntOrElse md? 10) none = some par ∧
      data = attachParent loc par := by
  cases el with
  | none => simp [getElementSourceLocationBody] at hb
  | some e =>
    by_cases hie : e.isElement = true
    · simp only [getElementSourceLocationBody, hie, Bool.not_true,
        Bool.false_eq_true, if_false] at hb
      cases hfi : extractFiberNodeF e with
      | none =>
        simp only [hfi] at hb
        exact absurd hb (by simp)
      | some fiberNode =>
        simp only [hfi] at hb
        cases hff : findFiberWithDebugStackF h fuel fiberNode
            (jsIntOrElse md? 10) with
        | none =>
          simp only [hff] at hb
          exact absurd hb (by simp)
        | some found =>
          cases found with
          | none =>
            simp only [hff] at hb
            exact absurd hb (by simp)
          | some j =>
            simp only [hff] at hb
            cases hpd : parseDebugStackF fuel h gps j with
            | none =>
              simp only [hpd] at hb
              exact absurd hb (by simp)
            | some pl =>
              cases pl with
              | none =>
                simp only [hpd] at hb
                exact absurd hb (by simp)
              | some loc =>
                simp only [hpd] at hb
                by_cases hval : validateSourceLocation loc = true
                · simp only [hval, if_true] at hb
                  cases hgp : getParentSourceLocationF h gps fuel
                      (derefFiber h j)._debugOwner (jsIntOrElse md? 10) none with
                  | none =>
                    simp only [hgp] at hb
                    exact absurd hb (by simp)
                  | some par =>
                    simp only [hgp, Option.some.injEq, Except.ok.injEq,
                      SourceLocationResult.ok.injEq] at hb
                    exact ⟨fiberNode, j, loc, par, hff, hpd, hval, hgp, hb.symm⟩
                · rw [Bool.not_eq_true] at hval
                  simp only [hval, Bool.false_eq_true, if_false] at hb
                  exact absurd hb (by simp)
    · rw [Bool.not_eq_true] at hie
      simp only [getElementSourceLocationBody, hie, Bool.not_false, if_true] at hb
      exact absurd hb (by simp)

/-- A success result of the public function comes from a success of the try
body. -/
theorem getElementSourceLocationF_ok_body (fuel : Nat) (h : Heap)
    (gps : GpsService) (el : Option DomElement) (md? : Option Int)
    (data : SourceLocation)
    (hres : getElementSourceLocationF fuel h gps el md? =
      some (SourceLocationResult.ok data)) :
    getElementSourceLocationBody fuel h gps el md? = some (.ok (.ok data)) := by
  unfold getElementSourceLocationF at hres
  cases hbody : getElementSourceLocationBody fuel h gps el md? with
  | none =>
    rw [hbody] at hres
    simp at hres
  | some r =>
    rw [hbody] at hres
    cases r with
    | ok v =>
      simp only [Option.map_some', Option.some.injEq] at hres
      rw [hres]
    | error e =>
      simp only [Option.map_some', Option.some.injEq] at hres
      exact absurd hres (by simp)

/-- C1: for every call to getElementSourceLocation that returns a
success-tagged result, the returned location satisfies line > 0,
column >= 0, and a non-empty file string. -/
theorem success_result_is_valid_location (fuel : Nat) (h : Heap)
    (gps : GpsService) (el : Option DomElement) (md? : Option Int)
    (data : SourceLocation)
    (hres : getElementSourceLocationF fuel h gps el md? =
      some (SourceLocationResult.ok data)) :
    data.line > 0 ∧ data.column ≥ 0 ∧ data.file ≠ "" := by
  obtain ⟨fiberNode, j, loc, par, hff, hpd, hval, hgp, hdata⟩ :=
    getElementSourceLocationBody_ok fuel h gps el md? data
      (getElementSourceLocationF_ok_body fuel h gps el md? data hres)
  subst hdata
  obtain ⟨hfile, hline, hcol⟩ := attachParent_fields loc par
  obtain ⟨h1, h2, h3⟩ := validateSourceLocation_fields loc hval
  rw [hfile, hline, hcol]
  exact ⟨h1, h2, h3⟩

theorem success_result_is_valid_location_witness :
    getElementSourceLocationF 20 heapC3 gpsNone (some elC3) (some 5) =
      some (SourceLocationResult.ok locC3success) ∧
    locC3success.line > 0 ∧ locC3success.column ≥ 0 ∧ locC3success.file ≠ "" :=
  ⟨rfl, success_result_is_valid_location 20 heapC3 gpsNone (some elC3) (some 5)
    locC3success rfl⟩

/-- C3 amended: for every success result, the ancestor chain obtained by
following parent repeatedly has length at most the effective depth
jsIntOrElse maxDepth 10 — that is, at most N whenever options.maxDepth = N
with N >= 1, and at most the default 10 when maxDepth is 0 or absent,
because the option is read with a truthiness-based default. -/
theorem ancestor_chain_bounded_by_effective_depth (fuel : Nat) (h : Heap)
    (gps : GpsService) (el : Option DomElement) (md? : Option Int)
    (data : SourceLocation)
    (hres : getElementSourceLocationF fuel h gps el md? =
      some (SourceLocationResult.ok data)) :
    (ancestorCount data : Int) ≤ jsIntOrElse md? 10 := by
  obtain ⟨fiberNode, j, loc, par, hff, hpd, hval, hgp, hdata⟩ :=
    getElementSourceLocationBody_ok fuel h gps el md? data
      (getElementSourceLocationF_ok_body fuel h gps el md? data hres)
  subst hdata
  have hmd : 0 < jsIntOrElse md? 10 :=
    findFiberWithDebugStackF_pos h fuel fiberNode _ j hff
  cases par with
  | none =>
    have hz : ancestorCount (attachParent loc none) = 0 :=
      ancestorCount_eq_zero _ (by
        have := parseDebugStackF_parent_none fuel h gps j loc hpd
        cases loc
        simpa [attachParent] using this)
    rw [hz]
    omega
  | some g =>
    have hb1 := getParentSourceLocationF_bound h gps fuel _ _ _ g hgp
    rw [ancestorCount_attach_some]
    push_cast
    omega

theorem ancestor_chain_bounded_by_effective_depth_witness :
    getElementSourceLocationF 20 heapC3 gpsNone (some elC3) (some 3) =
      some (SourceLocationResult.ok locC3success) ∧
    (ancestorCount locC3success : Int) ≤ jsIntOrElse (some 3) 10 :=
  ⟨rfl, ancestor_chain_bounded_by_effective_depth 20 heapC3 gpsNone (some elC3)
    (some 3) locC3success rfl⟩

/-- C3 counterexample: a call with options.maxDepth = 0 succeeds and returns
an ancestor chain of length 1, exceeding the requested bound 0, because
options.maxDepth || 10 treats the legal value 0 as absent and uses the
default 10. -/
theorem maxdepth_zero_chain_counterexample :
    getElementSourceLocationF 20 heapC3 gpsNone (some elC3) (some 0) =
      some (SourceLocationResult.ok locC3success) ∧
    ¬ ((ancestorCount locC3success : Int) ≤ 0) := by
  exact ⟨rfl, by decide⟩
